import Mathlib

/-!
Verification development for the render-backend repository.

The repository contains three variants of the same resolve / cache / enrich
pipeline:

* `src/server.js` — the `/api/predict` route built from `llama3Resolve`,
  `checkSupabaseCache` and `getSubstanceLegalStatus`;
* `src/unnamed/part_001` — the refactored server (`safeParseJSON`,
  `resolveSubstance`, `fetchOrQueryLegalData`, `processSubstanceQuery`);
* `src/unnamed/part_000` — prompt templates plus the older
  `/api/search-substance` route keyed by `canonical_name`.

The development embeds the JavaScript values the pipeline manipulates as a
`Json` inductive, models `JSON.parse` as an executable parser, models JS
truthiness and property access, and embeds each route as a pure function
from an environment (the external collaborators' replies) to the response
together with the trace of outbound calls (cache read, enrichment call,
cache upsert).  Unicode-sensitive operations (`toLowerCase`, `trim`) are
modelled over ASCII (`jsLower`, `jsTrimStr`); the substance names and
country codes involved are ASCII.
-/

/-- A JavaScript JSON value.  Numbers keep their source lexeme: the pipeline
never computes with numeric values, so we avoid committing to a float
semantics. -/
inductive Json where
  | null
  | bool (b : Bool)
  | num (lexeme : String)
  | str (s : String)
  | arr (elems : List Json)
  | obj (fields : List (String × Json))
deriving Repr, Inhabited

/-- Test for the JSON `null` value (the `Json` nested inductive does not
support derived decidable equality, so `null` tests are by this
discriminator). -/
def isNullJson : Json → Bool
  | Json.null => true
  | _ => false

/-- JSON whitespace accepted by `JSON.parse`: space, tab, line feed,
carriage return. -/
def isJsonWs (c : Char) : Bool :=
  c = ' ' || c = '\t' || c = '\n' || c = '\r'

/-- Drop leading JSON whitespace. -/
def skipWs : List Char → List Char
  | c :: cs => if isJsonWs c then skipWs cs else c :: cs
  | [] => []

/-- Value of a hexadecimal digit. -/
def hexVal (c : Char) : Option Nat :=
  if '0' ≤ c ∧ c ≤ '9' then some (c.toNat - 48)
  else if 'a' ≤ c ∧ c ≤ 'f' then some (c.toNat - 87)
  else if 'A' ≤ c ∧ c ≤ 'F' then some (c.toNat - 55)
  else none

/-- Left brace character (written via its code point). -/
def lbraceChar : Char := Char.ofNat 123

/-- Right brace character (written via its code point). -/
def rbraceChar : Char := Char.ofNat 125

/-- Parse the body of a JSON string literal (the opening quote already
consumed); returns the decoded characters and the input after the closing
quote.  Escapes follow `JSON.parse`; a surrogate pair in `\uXXXX` escapes is
combined into one code point, and a lone surrogate — which a JS string can
hold but a Lean `Char` cannot — is mapped to U+FFFD.  The `Nat` argument is
fuel keeping the recursion structural; each step consumes at least one
character, so fuel `length + 1` always suffices. -/
def parseStrLoop : Nat → List Char → Option (List Char × List Char)
  | 0, _ => none
  | _ + 1, [] => none
  | _ + 1, '"' :: rest => some ([], rest)
  | fuel + 1, '\\' :: rest =>
    match rest with
    | '"' :: r => (parseStrLoop fuel r).map (fun p => ('"' :: p.1, p.2))
    | '\\' :: r => (parseStrLoop fuel r).map (fun p => ('\\' :: p.1, p.2))
    | '/' :: r => (parseStrLoop fuel r).map (fun p => ('/' :: p.1, p.2))
    | 'b' :: r => (parseStrLoop fuel r).map (fun p => (Char.ofNat 8 :: p.1, p.2))
    | 'f' :: r => (parseStrLoop fuel r).map (fun p => (Char.ofNat 12 :: p.1, p.2))
    | 'n' :: r => (parseStrLoop fuel r).map (fun p => ('\n' :: p.1, p.2))
    | 'r' :: r => (parseStrLoop fuel r).map (fun p => ('\r' :: p.1, p.2))
    | 't' :: r => (parseStrLoop fuel r).map (fun p => ('\t' :: p.1, p.2))
    | 'u' :: a :: b :: c :: d :: r =>
      match hexVal a, hexVal b, hexVal c, hexVal d with
      | some ha, some hb, some hc, some hd =>
        let code := ha * 4096 + hb * 256 + hc * 16 + hd
        if 0xD800 ≤ code ∧ code ≤ 0xDBFF then
          match r with
          | '\\' :: 'u' :: e :: f :: g :: h :: r2 =>
            match hexVal e, hexVal f, hexVal g, hexVal h with
            | some he, some hf, some hg, some hh =>
              let code2 := he * 4096 + hf * 256 + hg * 16 + hh
              if 0xDC00 ≤ code2 ∧ code2 ≤ 0xDFFF then
                (parseStrLoop fuel r2).map
                  (fun p =>
                    (Char.ofNat (0x10000 + (code - 0xD800) * 1024 + (code2 - 0xDC00)) :: p.1,
                     p.2))
              else (parseStrLoop fuel r).map (fun p => (Char.ofNat 0xFFFD :: p.1, p.2))
            | _, _, _, _ => (parseStrLoop fuel r).map (fun p => (Char.ofNat 0xFFFD :: p.1, p.2))
          | _ => (parseStrLoop fuel r).map (fun p => (Char.ofNat 0xFFFD :: p.1, p.2))
        else if 0xDC00 ≤ code ∧ code ≤ 0xDFFF then
          (parseStrLoop fuel r).map (fun p => (Char.ofNat 0xFFFD :: p.1, p.2))
        else
          (parseStrLoop fuel r).map (fun p => (Char.ofNat code :: p.1, p.2))
      | _, _, _, _ => none
    | _ => none
  | fuel + 1, c :: rest =>
    if c.toNat < 32 then none
    else (parseStrLoop fuel rest).map (fun p => (c :: p.1, p.2))

/-- Entry point for string-literal bodies, supplying sufficient fuel. -/
def parseStrBody (cs : List Char) : Option (List Char × List Char) :=
  parseStrLoop (cs.length + 1) cs

/-- Take a maximal run of decimal digits. -/
def takeDigits : List Char → List Char × List Char
  | c :: cs =>
    if c.isDigit then
      let p := takeDigits cs
      (c :: p.1, p.2)
    else ([], c :: cs)
  | [] => ([], [])

/-- Parse the optional fraction part of a JSON number. -/
def parseFrac : List Char → Option (List Char × List Char)
  | '.' :: r =>
    let p := takeDigits r
    if p.1 = [] then none else some ('.' :: p.1, p.2)
  | cs => some ([], cs)

/-- Parse the optional exponent part of a JSON number. -/
def parseExp : List Char → Option (List Char × List Char)
  | c :: r =>
    if c = 'e' ∨ c = 'E' then
      match r with
      | s :: r2 =>
        if s = '+' ∨ s = '-' then
          let p := takeDigits r2
          if p.1 = [] then none else some (c :: s :: p.1, p.2)
        else
          let p := takeDigits r
          if p.1 = [] then none else some (c :: p.1, p.2)
      | [] => none
    else some ([], c :: r)
  | [] => some ([], [])

/-- Parse a JSON number; returns its lexeme. -/
def parseNumber (cs : List Char) : Option (String × List Char) :=
  let sign : List Char × List Char :=
    match cs with
    | '-' :: r => (['-'], r)
    | _ => ([], cs)
  match sign.2 with
  | c :: r =>
    if c = '0' then
      match parseFrac r with
      | some (fr, r2) =>
        match parseExp r2 with
        | some (ex, r3) => some (String.mk (sign.1 ++ [c] ++ fr ++ ex), r3)
        | none => none
      | none => none
    else if c.isDigit then
      let p := takeDigits r
      match parseFrac p.2 with
      | some (fr, r2) =>
        match parseExp r2 with
        | some (ex, r3) => some (String.mk (sign.1 ++ [c] ++ p.1 ++ fr ++ ex), r3)
        | none => none
      | none => none
    else none
  | [] => none

/-- Insert a field into an object under construction.  A duplicate key
overwrites the value but keeps the original position — the semantics of a
repeated key in `JSON.parse`. -/
def insertField : List (String × Json) → String → Json → List (String × Json)
  | [], k, v => [(k, v)]
  | (k0, v0) :: rest, k, v =>
    if k0 = k then (k0, v) :: rest else (k0, v0) :: insertField rest k v

/-- A stack frame of the JSON value parser: an array or an object under
construction (for an object, together with the key whose value is being
parsed). -/
inductive PFrame where
  | arr (acc : List Json)
  | obj (acc : List (String × Json)) (key : String)

/-- The JSON value parser, written as a fuel-indexed loop over an explicit
frame stack so that the recursion is structural (hence kernel-reducible).
`some v` in the second argument means a value has just been completed and
the parser is looking for a separator or closer. -/
def pLoop : Nat → Option Json → List PFrame → List Char → Option (Json × List Char)
  | 0, _, _, _ => none
  | fuel + 1, none, stack, cs0 =>
    match skipWs cs0 with
    | [] => none
    | c :: r =>
      if c = '"' then
        match parseStrBody r with
        | some (content, r2) => pLoop fuel (some (Json.str (String.mk content))) stack r2
        | none => none
      else if c = lbraceChar then
        match skipWs r with
        | c2 :: r2 =>
          if c2 = rbraceChar then pLoop fuel (some (Json.obj [])) stack r2
          else if c2 = '"' then
            match parseStrBody r2 with
            | some (kcs, r3) =>
              match skipWs r3 with
              | ':' :: r4 => pLoop fuel none (PFrame.obj [] (String.mk kcs) :: stack) r4
              | _ => none
            | none => none
          else none
        | [] => none
      else if c = '[' then
        match skipWs r with
        | ']' :: r2 => pLoop fuel (some (Json.arr [])) stack r2
        | r1 => pLoop fuel none (PFrame.arr [] :: stack) r1
      else if c = 'n' then
        match r with
        | 'u' :: 'l' :: 'l' :: r2 => pLoop fuel (some Json.null) stack r2
        | _ => none
      else if c = 't' then
        match r with
        | 'r' :: 'u' :: 'e' :: r2 => pLoop fuel (some (Json.bool true)) stack r2
        | _ => none
      else if c = 'f' then
        match r with
        | 'a' :: 'l' :: 's' :: 'e' :: r2 => pLoop fuel (some (Json.bool false)) stack r2
        | _ => none
      else
        match parseNumber (c :: r) with
        | some (lex, r2) => pLoop fuel (some (Json.num lex)) stack r2
        | none => none
  | fuel + 1, some v, stack, cs0 =>
    match stack with
    | [] => some (v, cs0)
    | PFrame.arr acc :: rest =>
      match skipWs cs0 with
      | ',' :: r => pLoop fuel none (PFrame.arr (acc ++ [v]) :: rest) r
      | ']' :: r => pLoop fuel (some (Json.arr (acc ++ [v]))) rest r
      | _ => none
    | PFrame.obj acc key :: rest =>
      let acc2 := insertField acc key v
      match skipWs cs0 with
      | ',' :: r =>
        match skipWs r with
        | c2 :: r2 =>
          if c2 = '"' then
            match parseStrBody r2 with
            | some (kcs, r3) =>
              match skipWs r3 with
              | ':' :: r4 => pLoop fuel none (PFrame.obj acc2 (String.mk kcs) :: rest) r4
              | _ => none
            | none => none
          else none
        | [] => none
      | c2 :: r2 => if c2 = rbraceChar then pLoop fuel (some (Json.obj acc2)) rest r2 else none
      | [] => none

/-- Model of `JSON.parse`: `some v` on a syntactically valid document,
`none` where `JSON.parse` throws a `SyntaxError`. -/
def jsonParse (s : String) : Option Json :=
  match pLoop (s.length + 2) none [] s.data with
  | some (v, rest) => if skipWs rest = [] then some v else none
  | none => none

/-- A single-quote character, used to build the messages that the source
writes with template literals. -/
def apos : String := String.mk [Char.ofNat 39]

/-- The resolver fallback message: `No known record of '<input>'`. -/
def noRecordMsg (q : String) : String :=
  "No known record of " ++ apos ++ q ++ apos

/-- The `/api/predict` default unresolved message in `src/server.js`:
`Could not resolve '<prompt>'`. -/
def couldNotResolveMsg (p : String) : String :=
  "Could not resolve " ++ apos ++ p ++ apos

/-- `JSON.parse` coerces a non-string argument to string: an `undefined`
raw value is parsed as the text `"undefined"` (which is not valid JSON). -/
def rawOrUndefined : Option String → String
  | some s => s
  | none => "undefined"

/-- `safeParseJSON(raw, fallback)` from `src/unnamed/part_001` (and the
inline `try { JSON.parse } catch` of `llama3Resolve` in `src/server.js`):
strict decode, with the fallback substituted on any decode failure.  The
function is total — the JS original never lets the exception escape. -/
def safeParseJSON (raw : Option String) (fallback : Json) : Json :=
  (jsonParse (rawOrUndefined raw)).getD fallback

/-- Zero test on a JSON number lexeme: the value is zero exactly when every
digit of the mantissa (the part before any exponent) is `0`. -/
def numIsZero (lex : String) : Bool :=
  (lex.takeWhile (fun c => c ≠ 'e' ∧ c ≠ 'E')).all
    (fun c => c = '0' ∨ c = '-' ∨ c = '.' ∨ c = '+')

/-- JS truthiness of a JSON value (`NaN` cannot arise from `JSON.parse`). -/
def jsTruthy : Json → Bool
  | Json.null => false
  | Json.bool b => b
  | Json.num lex => ! numIsZero lex
  | Json.str s => s ≠ ""
  | Json.arr _ => true
  | Json.obj _ => true

/-- JS truthiness of a possibly-`undefined` value (`none` = `undefined`). -/
def jsTruthyOpt : Option Json → Bool
  | none => false
  | some v => jsTruthy v

/-- First-match field lookup in an object. -/
def lookupField : List (String × Json) → String → Option Json
  | [], _ => none
  | (k, v) :: rest, f => if k = f then some v else lookupField rest f

/-- JS property access `v.f` for a value that is not `null` (access on
`null` throws and is modelled separately at each call site): a field of an
object, `undefined` (= `none`) everywhere else.  The pipeline only reads
named fields such as `resolved_name`, never array indices or `length`. -/
def jsFieldOpt : Json → String → Option Json
  | Json.obj fs, f => lookupField fs f
  | _, _ => none

/-- JS `a || b` where `a` may be `undefined`. -/
def jsOr (a : Option Json) (b : Json) : Json :=
  match a with
  | some v => if jsTruthy v then v else b
  | none => b

/-- Modelled message of the `TypeError` thrown by property access on
`null` (the exact JS wording is not load-bearing). -/
def readNullErr : String := "Cannot read properties of null"

/-- Modelled message of the `TypeError` thrown by `Object.entries(null)`. -/
def entriesNullErr : String := "Cannot convert undefined or null to object"

/-- Modelled message of the `TypeError` thrown by calling `.toLowerCase()`
on a value that is not a string. -/
def toLowerErr : String := "toLowerCase is not a function"

/-- Modelled message of the `TypeError` thrown by calling `.trim()` on a
value that is not a string. -/
def trimErr : String := "trim is not a function"

/-- `String.prototype.toLowerCase`, modelled on ASCII letters (Lean's
`String.toLower` iterates by byte position and is not kernel-reducible, so
the model maps over the character list instead). -/
def jsLower (s : String) : String := String.mk (s.data.map Char.toLower)

/-- Character class trimmed by `String.prototype.trim`, modelled as ASCII
whitespace. -/
def isTrimWs (c : Char) : Bool :=
  c = ' ' || c = '\t' || c = '\n' || c = '\r' || c = Char.ofNat 11 || c = Char.ofNat 12

/-- `String.prototype.trim`, modelled over the character list. -/
def jsTrimStr (s : String) : String :=
  String.mk (((s.data.dropWhile isTrimWs).reverse.dropWhile isTrimWs).reverse)

/-- JS method call `v.toLowerCase()`: defined on strings, a `TypeError`
otherwise (including on `undefined`). -/
def jsToLower : Option Json → Except String String
  | some (Json.str s) => Except.ok (jsLower s)
  | _ => Except.error toLowerErr

/-- JS method call `v.trim()`: defined on strings, a `TypeError`
otherwise (including on `undefined`). -/
def jsTrim : Option Json → Except String String
  | some (Json.str s) => Except.ok (jsTrimStr s)
  | _ => Except.error trimErr

/-- `Object.entries` on a value that is not `null` (the `null` case throws
and is modelled at each call site). -/
def jsEntries : Json → List (String × Json)
  | Json.obj fs => fs
  | Json.arr xs => xs.enum.map (fun p => (toString p.1, p.2))
  | Json.str s => s.data.enum.map (fun p => (toString p.1, Json.str (String.mk [p.2])))
  | _ => []

/-- A cache-store row, the shape persisted to the `psychedelic_access`
table.  `reference_link = none` means the field is absent from the row
object (the `src/server.js` and `src/unnamed/part_000` row shape);
`some v` is the explicit field of the refactored shape. -/
structure Row where
  substance : String
  country_code : String
  access_status : Json
  reference_link : Option Json
  updated_at : String
deriving Repr

/-- The `/^[A-Z]\x7b2\x7d$/` key filter of the enrichment transform: exactly
two characters, each an ASCII capital letter. -/
def isCountryCode (s : String) : Bool :=
  s.length = 2 && s.data.all (fun c => 65 ≤ c.toNat && c.toNat ≤ 90)

/-- The enrichment row transform of `src/server.js` and
`src/unnamed/part_000`: filter the entries of the parsed provider object by
the two-capital-letter key shape, then turn each surviving entry into a row
whose `access_status` is the entry's value as-is.  `now` stands for
`new Date().toISOString()`. -/
def legalRowsSimple (parsed : Json) (subst now : String) : List Row :=
  ((jsEntries parsed).filter (fun p => isCountryCode p.1)).map
    (fun p =>
      { substance := subst, country_code := p.1, access_status := p.2,
        reference_link := none, updated_at := now })

/-- The per-entry row builder of the refactored transform
(`src/unnamed/part_001`), for a payload on which property access is
defined: `access_status` defaults to `"Unknown"` when the field is missing
or falsy, `reference_link` defaults to `null`. -/
def rowRichTotal (subst now : String) (p : String × Json) : Row :=
  { substance := subst, country_code := p.1,
    access_status := jsOr (jsFieldOpt p.2 "access_status") (Json.str "Unknown"),
    reference_link := some (jsOr (jsFieldOpt p.2 "reference_link") Json.null),
    updated_at := now }

/-- The per-entry row builder of the refactored transform including the JS
failure mode: reading `.access_status` off a `null` payload throws. -/
def rowRich (subst now : String) (p : String × Json) : Except String Row :=
  if isNullJson p.2 then Except.error readNullErr
  else Except.ok (rowRichTotal subst now p)

/-- `Array.prototype.map` with a possibly-throwing callback: the first
throw aborts the whole map. -/
def mapRows (f : (String × Json) → Except String Row) :
    List (String × Json) → Except String (List Row)
  | [] => Except.ok []
  | p :: rest =>
    match f p with
    | Except.error e => Except.error e
    | Except.ok r =>
      match mapRows f rest with
      | Except.error e => Except.error e
      | Except.ok rs => Except.ok (r :: rs)

/-- The refactored enrichment row transform (`getSubstanceLegalStatus` in
`src/unnamed/part_001`): `Object.entries(parsed)` (throws on `null`),
filter by the key shape, then map each entry through `rowRich`; a throw in
the map aborts the whole call. -/
def legalRowsRich (parsed : Json) (subst now : String) : Except String (List Row) :=
  if isNullJson parsed then Except.error entriesNullErr
  else mapRows (rowRich subst now) ((jsEntries parsed).filter (fun p => isCountryCode p.1))

/-- Outcome of a `fetch` against the cache store: a successful reply, a
non-2xx reply (`response.ok` false), or the fetch itself rejecting. -/
inductive FetchOutcome (α : Type) where
  | ok (v : α)
  | httpFail (text : String)
  | netFail (msg : String)
deriving Repr

/-- Outcome of the enrichment provider call: the API call raising, or a
completion whose `content` may be `undefined` (`none`). -/
inductive EnrichOutcome where
  | fail (msg : String)
  | reply (content : Option String)
deriving Repr

/-- One request's external environment: what each collaborator would answer
if called.  `resolverRaw` is the resolver completion's `content`
(`none` = `undefined`); `now` stands for `new Date().toISOString()`. -/
structure Env where
  resolverRaw : Option String
  cacheRead : FetchOutcome (List Row)
  enrich : EnrichOutcome
  upsert : FetchOutcome Unit
  now : String

/-- An outbound call made while serving a request, in order. -/
inductive Event where
  | cacheRead (key : String)
  | enrichCall (key : String)
  | upsertCall (rows : List Row)
deriving Repr

/-- The fallback object installed by the resolver when the provider output
fails to decode:
`\x7bresolved_name: null, message: "No known record of '<q>'"\x7d`. -/
def resolverFallback (q : String) : Json :=
  Json.obj [("resolved_name", Json.null), ("message", Json.str (noRecordMsg q))]

/-- `llama3Resolve` (`src/server.js`, `src/unnamed/part_000`) and the
parsing step of `resolveSubstance` (`src/unnamed/part_001`): trim the
provider `content` and strictly decode it, substituting the fallback
object on any decode failure. -/
def llama3ResolveModel (content : Option String) (q : String) : Json :=
  safeParseJSON (content.map jsTrimStr) (resolverFallback q)

/-- The success body of a 200 reply from `/api/predict` in
`src/server.js`.  `rows = some n` is the `rows: n` field that only the
cache branch includes. -/
structure PredictOkBody where
  source : String
  rows : Option Nat
  normalizedSubstance : String
  resolved_name : Json
  canonical_name : Json
  data : List Row
deriving Repr

/-- A reply from `/api/predict` in `src/server.js`. -/
inductive PredictResp where
  | badRequest (error : String)
  | notFound (message : Json)
  | ok (body : PredictOkBody)
  | serverError (error : String)
deriving Repr

/-- The enrichment leg of `/api/predict` in `src/server.js`
(`getSubstanceLegalStatus` plus the `source: "openai"` reply).  Note: no
cache write happens on this path — `src/server.js` has no save function. -/
def serverEnrichStep (env : Env) (rnVal canonical : Json) (key : String)
    (ev : List Event) : PredictResp × List Event :=
  let ev2 := ev ++ [Event.enrichCall key]
  match env.enrich with
  | EnrichOutcome.fail msg => (PredictResp.serverError msg, ev2)
  | EnrichOutcome.reply content =>
    match content with
    | none => (PredictResp.serverError "Empty response from OpenAI", ev2)
    | some c0 =>
      if jsTrimStr c0 = "" then (PredictResp.serverError "Empty response from OpenAI", ev2)
      else
        match jsonParse (jsTrimStr c0) with
        | none => (PredictResp.serverError "Failed to parse OpenAI output", ev2)
        | some parsed =>
          if isNullJson parsed then (PredictResp.serverError entriesNullErr, ev2)
          else
            (PredictResp.ok
              { source := "openai", rows := none, normalizedSubstance := key,
                resolved_name := rnVal, canonical_name := canonical,
                data := legalRowsSimple parsed key env.now }, ev2)

/-- The `/api/predict` route of `src/server.js`: resolve via
`llama3Resolve`, 404 with `message || "Could not resolve '<prompt>'"` when
`resolved_name` is falsy, otherwise lower-case the resolved name, read the
cache (`checkSupabaseCache` maps both lookup failure modes to
`found: false`), answer from the cache when rows exist, and otherwise
enrich — returning the fresh rows without any cache write. -/
def serverPredict (env : Env) (prompt : String) : PredictResp × List Event :=
  if prompt = "" then
    (PredictResp.badRequest ("Missing " ++ apos ++ "prompt" ++ apos ++
      " field in request body"), [])
  else
    let parsed := llama3ResolveModel env.resolverRaw prompt
    if isNullJson parsed then (PredictResp.serverError readNullErr, [])
    else
      let rn := jsFieldOpt parsed "resolved_name"
      if jsTruthyOpt rn then
        match jsToLower rn with
        | Except.error e => (PredictResp.serverError e, [])
        | Except.ok key =>
          let rnVal := jsOr rn Json.null
          let canonical := jsOr (jsFieldOpt parsed "canonical_name") Json.null
          let ev := [Event.cacheRead key]
          match env.cacheRead with
          | FetchOutcome.ok results =>
            if results.length > 0 then
              (PredictResp.ok
                { source := "cache", rows := some results.length,
                  normalizedSubstance := key, resolved_name := rnVal,
                  canonical_name := canonical, data := results }, ev)
            else serverEnrichStep env rnVal canonical key ev
          | FetchOutcome.httpFail _ => serverEnrichStep env rnVal canonical key ev
          | FetchOutcome.netFail _ => serverEnrichStep env rnVal canonical key ev
      else
        (PredictResp.notFound
          (jsOr (jsFieldOpt parsed "message") (Json.str (couldNotResolveMsg prompt))), [])

/-- A reply from `/api/predict` in the refactored server
(`src/unnamed/part_001`).  The 404 body is the `resolveSubstance` result
`\x7bsuccess: false, message\x7d`; `message = none` models a message field
that was `undefined` and is therefore absent from the serialized body. -/
inductive ProcResp where
  | badRequest (error : String)
  | notFound (message : Option Json)
  | ok (source : String) (data : List Row) (normalizedSubstance : String)
      (resolved_name : Json)
  | serverError (error : String)
deriving Repr

/-- The enrichment leg of the refactored pipeline
(`getSubstanceLegalStatus` then `saveToSupabaseCache` inside
`fetchOrQueryLegalData`): empty `content` throws, an undecodable body falls
back to `\x7b\x7d` and yields zero rows, the save is skipped for zero rows
and its outcome is ignored otherwise. -/
def refactoredEnrichStep (env : Env) (rnVal : Json) (key : String) (ev : List Event) :
    ProcResp × List Event :=
  let ev2 := ev ++ [Event.enrichCall key]
  match env.enrich with
  | EnrichOutcome.fail msg => (ProcResp.serverError msg, ev2)
  | EnrichOutcome.reply content =>
    match content with
    | none => (ProcResp.serverError "Empty response from OpenAI", ev2)
    | some c0 =>
      if jsTrimStr c0 = "" then (ProcResp.serverError "Empty response from OpenAI", ev2)
      else
        let parsed := safeParseJSON (some (jsTrimStr c0)) (Json.obj [])
        match legalRowsRich parsed key env.now with
        | Except.error e => (ProcResp.serverError e, ev2)
        | Except.ok rows =>
          let ev3 := if rows.isEmpty then ev2 else ev2 ++ [Event.upsertCall rows]
          (ProcResp.ok "openai" rows key rnVal, ev3)

/-- The `/api/predict` route of the refactored server
(`src/unnamed/part_001`): `processSubstanceQuery` = `resolveSubstance`
then `fetchOrQueryLegalData` (with `useCache = true`), wrapped by the
route's 400/404/500 handling.  `checkSupabaseCache` maps both lookup
failure modes to `found: false`, so any cache-read failure falls through
to enrichment. -/
def refactoredPredict (env : Env) (prompt : String) : ProcResp × List Event :=
  if prompt = "" then (ProcResp.badRequest "Missing prompt", [])
  else
    let parsed := llama3ResolveModel env.resolverRaw prompt
    if isNullJson parsed then (ProcResp.serverError readNullErr, [])
    else
      let rn := jsFieldOpt parsed "resolved_name"
      if jsTruthyOpt rn then
        match jsToLower rn with
        | Except.error e => (ProcResp.serverError e, [])
        | Except.ok key =>
          let rnVal := jsOr rn Json.null
          let ev := [Event.cacheRead key]
          match env.cacheRead with
          | FetchOutcome.ok results =>
            if results.length > 0 then
              (ProcResp.ok "cache" results key rnVal, ev)
            else refactoredEnrichStep env rnVal key ev
          | FetchOutcome.httpFail _ => refactoredEnrichStep env rnVal key ev
          | FetchOutcome.netFail _ => refactoredEnrichStep env rnVal key ev
      else (ProcResp.notFound (jsFieldOpt parsed "message"), [])

/-- A reply from `/api/search-substance` (`src/unnamed/part_000`).  The
unresolved reply there is HTTP 200 with
`\x7bsuccess: false, error_type: "no_record", message\x7d`; the cache and
fresh replies carry a row count but no data; the catch-all 500 is
`\x7berror: "Server error", details\x7d`, modelled by
`serverError error (some details)`. -/
inductive SearchResp where
  | badRequest (error : String)
  | noRecord (message : Option Json)
  | okCache (rows : Nat) (normalizedSubstance : String) (resolved_name : Json)
      (canonical_name : Json)
  | okFresh (rows : Nat) (normalizedSubstance : String) (resolved_name : Json)
      (canonical_name : Json)
  | serverError (error : String) (details : Option String)
deriving Repr

/-- The enrichment-and-persist leg of `/api/search-substance`
(`src/unnamed/part_000`): an empty body throws into the outer catch, a
parse failure is answered directly with 500
`"Failed to parse OpenAI output"`, zero surviving rows is 500
`"No valid rows returned"`, and the upsert failure modes are 500
`"Supabase insert failed"` (non-2xx) or the outer catch (rejection). -/
def searchEnrichStep (env : Env) (rnVal canonical : Json) (key : String)
    (ev : List Event) : SearchResp × List Event :=
  let ev2 := ev ++ [Event.enrichCall key]
  match env.enrich with
  | EnrichOutcome.fail msg => (SearchResp.serverError "Server error" (some msg), ev2)
  | EnrichOutcome.reply content =>
    match content with
    | none =>
      (SearchResp.serverError "Server error" (some "Empty response from OpenAI"), ev2)
    | some c0 =>
      if jsTrimStr c0 = "" then
        (SearchResp.serverError "Server error" (some "Empty response from OpenAI"), ev2)
      else
        match jsonParse (jsTrimStr c0) with
        | none => (SearchResp.serverError "Failed to parse OpenAI output" none, ev2)
        | some parsed =>
          if isNullJson parsed then
            (SearchResp.serverError "Server error" (some entriesNullErr), ev2)
          else
            let rows := legalRowsSimple parsed key env.now
            if rows.length = 0 then
              (SearchResp.serverError "No valid rows returned" none, ev2)
            else
              let ev3 := ev2 ++ [Event.upsertCall rows]
              match env.upsert with
              | FetchOutcome.ok _ =>
                (SearchResp.okFresh rows.length key rnVal canonical, ev3)
              | FetchOutcome.httpFail _ =>
                (SearchResp.serverError "Supabase insert failed" none, ev3)
              | FetchOutcome.netFail m =>
                (SearchResp.serverError "Server error" (some m), ev3)

/-- The `/api/search-substance` route of `src/unnamed/part_000`: resolve
via `llama3Resolve`, answer `no_record` (HTTP 200) when `resolved_name` is
falsy, derive the cache key as `canonical_name.trim()` (no case folding),
answer 500 `"Failed to query Supabase"` when the cache read is non-2xx,
answer from the cache when rows exist, otherwise enrich and persist. -/
def searchSubstance (env : Env) (substance : String) : SearchResp × List Event :=
  if substance = "" then (SearchResp.badRequest "Missing substance", [])
  else
    let rawQuery := jsTrimStr substance
    if rawQuery = "" then (SearchResp.badRequest "Empty substance", [])
    else
      let parsed := llama3ResolveModel env.resolverRaw rawQuery
      if isNullJson parsed then
        (SearchResp.serverError "Server error" (some readNullErr), [])
      else
        let rn := jsFieldOpt parsed "resolved_name"
        if jsTruthyOpt rn then
          match jsTrim (jsFieldOpt parsed "canonical_name") with
          | Except.error e => (SearchResp.serverError "Server error" (some e), [])
          | Except.ok key =>
            let rnVal := jsOr rn Json.null
            let canonical := jsOr (jsFieldOpt parsed "canonical_name") Json.null
            let ev := [Event.cacheRead key]
            match env.cacheRead with
            | FetchOutcome.ok existing =>
              if existing.length > 0 then
                (SearchResp.okCache existing.length key rnVal canonical, ev)
              else searchEnrichStep env rnVal canonical key ev
            | FetchOutcome.httpFail _ =>
              (SearchResp.serverError "Failed to query Supabase" none, ev)
            | FetchOutcome.netFail m =>
              (SearchResp.serverError "Server error" (some m), ev)
        else (SearchResp.noRecord (jsFieldOpt parsed "message"), [])

/-- Recogniser for upsert events, used to state that a path makes no cache
write. -/
def isUpsertEvent : Event → Bool
  | Event.upsertCall _ => true
  | _ => false

lemma jsOr_of_falsy (a : Option Json) (b : Json) (h : jsTruthyOpt a = false) :
    jsOr a b = b := by
  cases a with
  | none => rfl
  | some v => simp [jsTruthyOpt] at h; simp [jsOr, h]

lemma notNull_of_field (p : Json) (f : String) (v : Json)
    (h : jsFieldOpt p f = some v) : isNullJson p = false := by
  cases p <;> simp_all [jsFieldOpt, isNullJson]

lemma mapRows_ok (subst now : String) :
    ∀ l : List (String × Json), (∀ p ∈ l, isNullJson p.2 = false) →
      mapRows (rowRich subst now) l = Except.ok (l.map (rowRichTotal subst now)) := by
  intro l
  induction l with
  | nil => intro _; rfl
  | cons hd tl ih =>
    intro h
    have hhd : isNullJson hd.2 = false := h hd (List.mem_cons_self _ _)
    have htl := ih (fun p hp => h p (List.mem_cons_of_mem _ hp))
    simp [mapRows, rowRich, hhd, htl]

lemma legalRowsRich_codes (fs : List (String × Json)) (subst now : String) :
    (((fs.filter (fun p => isCountryCode p.1)).map (rowRichTotal subst now)).map
        (fun r => r.country_code))
      = (fs.map (fun p => p.1)).filter isCountryCode := by
  induction fs with
  | nil => rfl
  | cons hd tl ih =>
    simp only [List.filter_cons, List.map_cons]
    cases hc : isCountryCode hd.1 <;> simp [hc, ih, rowRichTotal]

lemma legalRowsSimple_codes (fs : List (String × Json)) (subst now : String) :
    (legalRowsSimple (Json.obj fs) subst now).map (fun r => r.country_code)
      = (fs.map (fun p => p.1)).filter isCountryCode := by
  simp only [legalRowsSimple, jsEntries]
  induction fs with
  | nil => rfl
  | cons hd tl ih =>
    simp only [List.filter_cons, List.map_cons]
    cases h : isCountryCode hd.1 <;> simp [h, ih]

/-- C5 (confirmed): `safeParseJSON(raw, fallback)` never raises — it is a
total function — and returns `fallback` exactly when strict decoding of
`raw` fails, in particular for `raw = "not json"`, `raw = ""` and an
`undefined` `raw`, while returning the decoded value unchanged for every
syntactically valid input, including the empty object document. -/
theorem C5_parser_safety :
    (∀ fb : Json, safeParseJSON (some "not json") fb = fb) ∧
    (∀ fb : Json, safeParseJSON (some "") fb = fb) ∧
    (∀ fb : Json, safeParseJSON none fb = fb) ∧
    jsonParse "\x7b\x7d" = some (Json.obj []) ∧
    (∀ raw v fb, jsonParse raw = some v → safeParseJSON (some raw) fb = v) ∧
    (∀ raw fb, jsonParse raw = none → safeParseJSON (some raw) fb = fb) := by
  refine ⟨fun fb => rfl, fun fb => rfl, fun fb => rfl, rfl, ?_, ?_⟩
  · intro raw v fb h
    simp [safeParseJSON, rawOrUndefined, h]
  · intro raw fb h
    simp [safeParseJSON, rawOrUndefined, h]

/-- C5 witness: the decoded empty object comes back unchanged on a
concrete run. -/
theorem C5_witness :
    safeParseJSON (some "\x7b\x7d") Json.null = Json.obj [] :=
  C5_parser_safety.2.2.2.2.1 "\x7b\x7d" (Json.obj []) Json.null rfl

/-- C9 (counterexample): in the refactored transform an accepted
two-capital-letter key does not always become a record — a `null` payload
under the accepted key `"US"` makes the whole call throw a `TypeError`
instead of producing the record. -/
theorem C9_counterexample :
    isCountryCode "US" = true ∧
    legalRowsRich (Json.obj [("US", Json.null)]) "mdma" "2024-01-01T00:00:00Z"
      = Except.error readNullErr := by
  exact ⟨rfl, rfl⟩

/-- C9 (amended): in the `src/server.js` / `src/unnamed/part_000`
transform, exactly the entries whose key matches the two-capital-letter
shape become records — in entry order, each carrying the queried entity
and stamped with the current time, with malformed keys dropped silently,
producing no record and never failing the call; the refactored transform
satisfies the same provided no accepted entry carries a `null` payload
(such a payload throws and fails the whole call, as the counterexample
shows). -/
theorem C9_amended (fs : List (String × Json)) (subst now : String) :
    ((legalRowsSimple (Json.obj fs) subst now).map (fun r => r.country_code)
        = (fs.map (fun p => p.1)).filter isCountryCode) ∧
    (∀ r ∈ legalRowsSimple (Json.obj fs) subst now,
        r.substance = subst ∧ r.updated_at = now) ∧
    (∀ c v, (c, v) ∈ fs → isCountryCode c = true →
        ({ substance := subst, country_code := c, access_status := v,
           reference_link := none, updated_at := now } : Row)
          ∈ legalRowsSimple (Json.obj fs) subst now) ∧
    (∀ c, isCountryCode c = false →
        ∀ r ∈ legalRowsSimple (Json.obj fs) subst now, r.country_code ≠ c) ∧
    ((∀ p ∈ fs, isCountryCode p.1 = true → isNullJson p.2 = false) →
      ∃ rows, legalRowsRich (Json.obj fs) subst now = Except.ok rows ∧
        rows.map (fun r => r.country_code) = (fs.map (fun p => p.1)).filter isCountryCode ∧
        ∀ r ∈ rows, r.substance = subst ∧ r.updated_at = now) := by
  refine ⟨legalRowsSimple_codes fs subst now, ?_, ?_, ?_, ?_⟩
  · intro r hr
    simp only [legalRowsSimple, jsEntries, List.mem_map] at hr
    obtain ⟨p, _, rfl⟩ := hr
    exact ⟨rfl, rfl⟩
  · intro c v hmem hc
    simp only [legalRowsSimple, jsEntries, List.mem_map]
    exact ⟨(c, v), List.mem_filter.mpr ⟨hmem, hc⟩, rfl⟩
  · intro c hc r hr hrc
    simp only [legalRowsSimple, jsEntries, List.mem_map] at hr
    obtain ⟨p, hp, rfl⟩ := hr
    have hpc := (List.mem_filter.mp hp).2
    simp only at hrc
    rw [hrc] at hpc
    rw [hpc] at hc
    exact Bool.noConfusion hc
  · intro h
    have hnn : ∀ p ∈ fs.filter (fun p => isCountryCode p.1), isNullJson p.2 = false := by
      intro p hp
      have hm := List.mem_filter.mp hp
      exact h p hm.1 hm.2
    have hok := mapRows_ok subst now (fs.filter (fun p => isCountryCode p.1)) hnn
    refine ⟨(fs.filter (fun p => isCountryCode p.1)).map (rowRichTotal subst now), ?_, ?_, ?_⟩
    · simp [legalRowsRich, isNullJson, jsEntries, hok]
    · exact legalRowsRich_codes fs subst now
    · intro r hr
      simp only [List.mem_map] at hr
      obtain ⟨p, _, rfl⟩ := hr
      exact ⟨rfl, rfl⟩

/-- C9 witness: on a concrete provider object with one valid and one
malformed key, the valid entry's record appears. -/
theorem C9_witness :
    ({ substance := "mdma", country_code := "US", access_status := Json.str "Banned",
       reference_link := none, updated_at := "t" } : Row)
      ∈ legalRowsSimple
          (Json.obj [("US", Json.str "Banned"), ("usa", Json.str "x")]) "mdma" "t" :=
  (C9_amended [("US", Json.str "Banned"), ("usa", Json.str "x")] "mdma" "t").2.2.1
    "US" (Json.str "Banned") (by simp) rfl

/-- C10 (confirmed): in the refactored transform an accepted jurisdiction
key is never dropped for lacking payload fields — whenever the call
succeeds (no accepted `null` payload), each accepted key with an object
payload yields a record whose `access_status` defaults to `"Unknown"` when
the field is missing or falsy and whose `reference_link` defaults to
`null` when the field is missing. -/
theorem C10_payload_defaults (fs : List (String × Json)) (subst now : String)
    (h : ∀ p ∈ fs, isCountryCode p.1 = true → isNullJson p.2 = false) :
    ∃ rows, legalRowsRich (Json.obj fs) subst now = Except.ok rows ∧
      ∀ c pf, (c, Json.obj pf) ∈ fs → isCountryCode c = true →
        ∃ r ∈ rows, r.country_code = c ∧
          (jsTruthyOpt (lookupField pf "access_status") = false →
            r.access_status = Json.str "Unknown") ∧
          (lookupField pf "reference_link" = none →
            r.reference_link = some Json.null) := by
  have hnn : ∀ p ∈ fs.filter (fun p => isCountryCode p.1), isNullJson p.2 = false := by
    intro p hp
    have hm := List.mem_filter.mp hp
    exact h p hm.1 hm.2
  refine ⟨(fs.filter (fun p => isCountryCode p.1)).map (rowRichTotal subst now), ?_, ?_⟩
  · simp [legalRowsRich, isNullJson, jsEntries, mapRows_ok subst now _ hnn]
  · intro c pf hmem hc
    refine ⟨rowRichTotal subst now (c, Json.obj pf), ?_, rfl, ?_, ?_⟩
    · exact List.mem_map.mpr ⟨(c, Json.obj pf), List.mem_filter.mpr ⟨hmem, hc⟩, rfl⟩
    · intro hfalsy
      simp only [rowRichTotal, jsFieldOpt]
      exact jsOr_of_falsy _ _ hfalsy
    · intro hmiss
      simp only [rowRichTotal, jsFieldOpt, hmiss]
      rfl

/-- C10 witness: a concrete accepted entry with an empty object payload
yields the defaulted record. -/
theorem C10_witness :
    ∃ rows, legalRowsRich (Json.obj [("US", Json.obj [])]) "mdma" "t" = Except.ok rows ∧
      ∀ c pf, (c, Json.obj pf) ∈ [("US", Json.obj ([] : List (String × Json)))] →
        isCountryCode c = true →
        ∃ r ∈ rows, r.country_code = c ∧
          (jsTruthyOpt (lookupField pf "access_status") = false →
            r.access_status = Json.str "Unknown") ∧
          (lookupField pf "reference_link" = none →
            r.reference_link = some Json.null) :=
  C10_payload_defaults [("US", Json.obj [])] "mdma" "t"
    (by intro p hp _; simp at hp; rw [hp]; rfl)

lemma noRecordMsg_ne_empty (p : String) : noRecordMsg p ≠ "" := by
  intro h
  have hlen := congrArg String.length h
  rw [noRecordMsg] at hlen
  simp only [String.length_append] at hlen
  have h19 : ("No known record of " : String).length = 19 := by decide
  have h1 : apos.length = 1 := by decide
  have h0 : ("" : String).length = 0 := rfl
  rw [h19, h1, h0] at hlen
  omega

/-- Environment of the C1 counterexample: the resolver provider answers
the valid document `\x7b"resolved_name":null\x7d` — a null resolved name
and no message of its own. -/
def c1env : Env :=
  { resolverRaw := some "\x7b\"resolved_name\":null\x7d",
    cacheRead := FetchOutcome.ok [], enrich := EnrichOutcome.reply none,
    upsert := FetchOutcome.ok (), now := "t" }

/-- C1 (counterexample): when the resolver result has a null resolved name
but supplies no message, `src/server.js` answers 404 with the default
`Could not resolve 'molly'` — not the claimed fallback pattern
`No known record of 'molly'` — and the refactored server omits the message
field entirely. -/
theorem C1_counterexample :
    (serverPredict c1env "molly").1
      = PredictResp.notFound (Json.str (couldNotResolveMsg "molly")) ∧
    couldNotResolveMsg "molly" ≠ noRecordMsg "molly" ∧
    (refactoredPredict c1env "molly").1 = ProcResp.notFound none := by
  exact ⟨rfl, by decide, rfl⟩

/-- C1 (amended): for every request whose resolver result has a falsy
`resolved_name`, the `src/server.js` and refactored orchestrators return
the 404 unresolved shape and make no cache, enrichment or upsert call;
the response message echoes the resolver result's `message`, which equals
the fallback pattern `No known record of '<input>'` exactly when the
provider raw output failed to decode — while a decoded result that lacks
a message yields the default `Could not resolve '<input>'` in
`src/server.js` and an absent message in the refactored variant. -/
theorem C1_unresolved_shortcircuit (env : Env) (prompt : String) (hp : prompt ≠ "")
    (hnn : isNullJson (llama3ResolveModel env.resolverRaw prompt) = false)
    (hfalsy : jsTruthyOpt (jsFieldOpt (llama3ResolveModel env.resolverRaw prompt)
        "resolved_name") = false) :
    ((serverPredict env prompt).2 = [] ∧
      (serverPredict env prompt).1 = PredictResp.notFound
        (jsOr (jsFieldOpt (llama3ResolveModel env.resolverRaw prompt) "message")
          (Json.str (couldNotResolveMsg prompt)))) ∧
    ((refactoredPredict env prompt).2 = [] ∧
      (refactoredPredict env prompt).1 = ProcResp.notFound
        (jsFieldOpt (llama3ResolveModel env.resolverRaw prompt) "message")) ∧
    (jsonParse (rawOrUndefined (env.resolverRaw.map jsTrimStr)) = none →
      (serverPredict env prompt).1
          = PredictResp.notFound (Json.str (noRecordMsg prompt)) ∧
      (refactoredPredict env prompt).1
          = ProcResp.notFound (some (Json.str (noRecordMsg prompt)))) := by
  have hs2 : serverPredict env prompt
      = (PredictResp.notFound
          (jsOr (jsFieldOpt (llama3ResolveModel env.resolverRaw prompt) "message")
            (Json.str (couldNotResolveMsg prompt))), []) := by
    simp [serverPredict, hnn, hfalsy, hp]
  have hr2 : refactoredPredict env prompt
      = (ProcResp.notFound
          (jsFieldOpt (llama3ResolveModel env.resolverRaw prompt) "message"), []) := by
    simp [refactoredPredict, hnn, hfalsy, hp]
  refine ⟨⟨by rw [hs2], by rw [hs2]⟩, ⟨by rw [hr2], by rw [hr2]⟩, ?_⟩
  intro hfail
  have hfb : llama3ResolveModel env.resolverRaw prompt = resolverFallback prompt := by
    simp [llama3ResolveModel, safeParseJSON, hfail]
  have hmsg : jsFieldOpt (llama3ResolveModel env.resolverRaw prompt) "message"
      = some (Json.str (noRecordMsg prompt)) := by
    rw [hfb]; rfl
  have ht : jsTruthy (Json.str (noRecordMsg prompt)) = true := by
    simp [jsTruthy]
    exact noRecordMsg_ne_empty prompt
  constructor
  · rw [hs2]
    simp only [hmsg]
    simp [jsOr, ht]
  · rw [hr2, hmsg]

/-- C1 witness: a concrete unresolved request makes no outbound call. -/
theorem C1_witness : (serverPredict c1env "molly").2 = [] :=
  (C1_unresolved_shortcircuit c1env "molly" (by decide) rfl rfl).1.1

lemma jsTruthyOpt_str (name : String) (h : name ≠ "") :
    jsTruthyOpt (some (Json.str name)) = true := by
  simp [jsTruthyOpt, jsTruthy, h]

/-- C2 (confirmed): when resolution succeeds and the cache read returns a
non-empty row set, both `/api/predict` orchestrators answer
`source = "cache"` with exactly those rows, and the enrichment client is
never invoked — the request trace is exactly the one cache read. -/
theorem C2_cache_precedence (env : Env) (prompt name : String) (rs : List Row)
    (hp : prompt ≠ "")
    (hname : jsFieldOpt (llama3ResolveModel env.resolverRaw prompt) "resolved_name"
        = some (Json.str name))
    (hne : name ≠ "")
    (hcache : env.cacheRead = FetchOutcome.ok rs) (hrs : rs ≠ []) :
    (serverPredict env prompt).1
      = PredictResp.ok
          { source := "cache", rows := some rs.length,
            normalizedSubstance := jsLower name, resolved_name := Json.str name,
            canonical_name :=
              jsOr (jsFieldOpt (llama3ResolveModel env.resolverRaw prompt) "canonical_name")
                Json.null,
            data := rs } ∧
    (serverPredict env prompt).2 = [Event.cacheRead (jsLower name)] ∧
    (refactoredPredict env prompt).1
      = ProcResp.ok "cache" rs (jsLower name) (Json.str name) ∧
    (refactoredPredict env prompt).2 = [Event.cacheRead (jsLower name)] := by
  have hnn := notNull_of_field _ _ _ hname
  have htr : jsTruthyOpt (jsFieldOpt (llama3ResolveModel env.resolverRaw prompt)
      "resolved_name") = true := by
    rw [hname]; exact jsTruthyOpt_str name hne
  have hlow : jsToLower (jsFieldOpt (llama3ResolveModel env.resolverRaw prompt)
      "resolved_name") = Except.ok (jsLower name) := by
    rw [hname]; rfl
  have hOr : jsOr (jsFieldOpt (llama3ResolveModel env.resolverRaw prompt)
      "resolved_name") Json.null = Json.str name := by
    rw [hname]; simp [jsOr, jsTruthy, hne]
  have hlen : 0 < rs.length := List.length_pos.mpr hrs
  refine ⟨?_, ?_, ?_, ?_⟩ <;>
    simp [serverPredict, refactoredPredict, hnn, htr, hlow, hOr, hcache, hp, hlen]

/-- Environment of the C2 witness: resolver answers `MDMA`, the cache holds
one row for `mdma`. -/
def c2row : Row :=
  { substance := "mdma", country_code := "US", access_status := Json.str "Banned",
    reference_link := some Json.null, updated_at := "t0" }

def c2env : Env :=
  { resolverRaw := some "\x7b\"resolved_name\":\"MDMA\"\x7d",
    cacheRead := FetchOutcome.ok [c2row], enrich := EnrichOutcome.reply none,
    upsert := FetchOutcome.ok (), now := "t" }

/-- C2 witness: a concrete cache hit is answered from the cache. -/
theorem C2_witness :
    (refactoredPredict c2env "molly").1
      = ProcResp.ok "cache" [c2row] "mdma" (Json.str "MDMA") :=
  (C2_cache_precedence c2env "molly" "MDMA" [c2row] (by decide) rfl (by decide) rfl
    (by simp)).2.2.1

lemma serverEnrichStep_trace (env : Env) (rnVal canonical : Json) (key : String)
    (ev : List Event) :
    (serverEnrichStep env rnVal canonical key ev).2 = ev ++ [Event.enrichCall key] := by
  unfold serverEnrichStep
  repeat' split
  all_goals rfl

lemma serverPredict_no_upsert (env : Env) (prompt : String) :
    ∀ e ∈ (serverPredict env prompt).2, isUpsertEvent e = false := by
  intro e he
  unfold serverPredict at he
  by_cases hp : prompt = ""
  · simp [hp] at he
  · rw [if_neg hp] at he
    by_cases hnull : isNullJson (llama3ResolveModel env.resolverRaw prompt) = true
    · simp [hnull] at he
    · rw [if_neg hnull] at he
      by_cases htr : jsTruthyOpt (jsFieldOpt (llama3ResolveModel env.resolverRaw prompt)
          "resolved_name") = true
      · rw [if_pos htr] at he
        rcases hlow : jsToLower (jsFieldOpt (llama3ResolveModel env.resolverRaw prompt)
            "resolved_name") with e' | key
        · simp only [hlow] at he
          simp at he
        · simp only [hlow] at he
          rcases hcr : env.cacheRead with results | t | m
          · simp only [hcr] at he
            by_cases hlen : 0 < results.length
            · rw [if_pos hlen] at he
              simp at he
              subst he
              rfl
            · rw [if_neg hlen] at he
              rw [serverEnrichStep_trace] at he
              simp at he
              rcases he with rfl | rfl <;> rfl
          · simp only [hcr] at he
            rw [serverEnrichStep_trace] at he
            simp at he
            rcases he with rfl | rfl <;> rfl
          · simp only [hcr] at he
            rw [serverEnrichStep_trace] at he
            simp at he
            rcases he with rfl | rfl <;> rfl
      · rw [if_neg htr] at he
        simp at he

lemma refactoredEnrichStep_trace (env : Env) (rnVal : Json) (key : String)
    (ev : List Event) :
    (refactoredEnrichStep env rnVal key ev).2 = ev ++ [Event.enrichCall key] ∨
    ∃ rows, (refactoredEnrichStep env rnVal key ev).2
        = ev ++ [Event.enrichCall key] ++ [Event.upsertCall rows] := by
  unfold refactoredEnrichStep
  rcases env.enrich with msg | content
  · left; rfl
  · rcases content with _ | raw0
    · left; rfl
    · simp only [Option.map_some]
      by_cases h : jsTrimStr raw0 = ""
      · simp [h]
      · rw [if_neg h]
        rcases hr : legalRowsRich (safeParseJSON (some (jsTrimStr raw0)) (Json.obj []))
            key env.now with e' | rows
        · simp [hr]
        · simp only [hr]
          rcases rows with _ | ⟨hd, tl⟩
          · left; rfl
          · right
            exact ⟨hd :: tl, by simp⟩

/-- Environment of the C3 counterexample: resolver answers `MDMA`, the
cache is empty, the enrichment provider answers one `US` entry, and the
store would accept a write. -/
def c3env : Env :=
  { resolverRaw := some "\x7b\"resolved_name\":\"MDMA\"\x7d",
    cacheRead := FetchOutcome.ok [],
    enrich := EnrichOutcome.reply (some "\x7b\"US\":\"Banned\"\x7d"),
    upsert := FetchOutcome.ok (), now := "2024-01-01" }

def c3row : Row :=
  { substance := "mdma", country_code := "US", access_status := Json.str "Banned",
    reference_link := none, updated_at := "2024-01-01" }

/-- C3 (counterexample): on a cache miss the `src/server.js` `/api/predict`
route returns the freshly computed rows while its trace holds only the
cache read and the enrichment call — no cache write is attempted. -/
theorem C3_counterexample :
    (serverPredict c3env "molly").2
      = [Event.cacheRead "mdma", Event.enrichCall "mdma"] ∧
    (serverPredict c3env "molly").1
      = PredictResp.ok
          { source := "openai", rows := none, normalizedSubstance := "mdma",
            resolved_name := Json.str "MDMA", canonical_name := Json.null,
            data := [c3row] } := by
  exact ⟨rfl, rfl⟩

def c3wrow : Row :=
  { substance := "mdma", country_code := "US", access_status := Json.str "Unknown",
    reference_link := some Json.null, updated_at := "2024-01-01" }

/-- C3 (amended): the refactored orchestrator persists on every cache-miss
path that yields a non-empty row set — the upsert call appears in the
trace after the enrichment call and before the fresh response is
returned — while the `src/server.js` `/api/predict` variant never issues
an upsert call on any path. -/
theorem C3_miss_persistence (env : Env) (prompt name raw : String) (rows : List Row)
    (hp : prompt ≠ "")
    (hname : jsFieldOpt (llama3ResolveModel env.resolverRaw prompt) "resolved_name"
        = some (Json.str name))
    (hne : name ≠ "")
    (hcache : env.cacheRead = FetchOutcome.ok [])
    (henrich : env.enrich = EnrichOutcome.reply (some raw))
    (htrim : jsTrimStr raw ≠ "")
    (hrows : legalRowsRich (safeParseJSON (some (jsTrimStr raw)) (Json.obj []))
        (jsLower name) env.now = Except.ok rows)
    (hnonempty : rows ≠ []) :
    (∀ e ∈ (serverPredict env prompt).2, isUpsertEvent e = false) ∧
    (refactoredPredict env prompt).1
      = ProcResp.ok "openai" rows (jsLower name) (Json.str name) ∧
    (refactoredPredict env prompt).2
      = [Event.cacheRead (jsLower name), Event.enrichCall (jsLower name),
         Event.upsertCall rows] := by
  have hnn := notNull_of_field _ _ _ hname
  have htr : jsTruthyOpt (jsFieldOpt (llama3ResolveModel env.resolverRaw prompt)
      "resolved_name") = true := by
    rw [hname]; exact jsTruthyOpt_str name hne
  have hlow : jsToLower (jsFieldOpt (llama3ResolveModel env.resolverRaw prompt)
      "resolved_name") = Except.ok (jsLower name) := by
    rw [hname]; rfl
  have hOr : jsOr (jsFieldOpt (llama3ResolveModel env.resolverRaw prompt)
      "resolved_name") Json.null = Json.str name := by
    rw [hname]; simp [jsOr, jsTruthy, hne]
  have hie : rows.isEmpty = false := by
    cases rows with
    | nil => exact absurd rfl hnonempty
    | cons hd tl => rfl
  refine ⟨serverPredict_no_upsert env prompt, ?_, ?_⟩ <;>
    simp [refactoredPredict, refactoredEnrichStep, hnn, htr, hlow, hOr, hcache, hp,
      henrich, htrim, hrows, hie]

/-- C3 witness: a concrete refactored cache miss ends in an upsert call for
the freshly computed rows. -/
theorem C3_witness :
    (refactoredPredict c3env "molly").2
      = [Event.cacheRead "mdma", Event.enrichCall "mdma", Event.upsertCall [c3wrow]] :=
  (C3_miss_persistence c3env "molly" "MDMA" "\x7b\"US\":\"Banned\"\x7d" [c3wrow]
    (by decide) rfl (by decide) rfl rfl (by decide) rfl (by simp)).2.2

lemma llama3Resolve_query_irrelevant (content : Option String) (q q2 name : String)
    (hname : jsFieldOpt (llama3ResolveModel content q) "resolved_name"
        = some (Json.str name)) :
    llama3ResolveModel content q2 = llama3ResolveModel content q := by
  unfold llama3ResolveModel safeParseJSON
  cases h : jsonParse (rawOrUndefined (content.map jsTrimStr)) with
  | some v => rfl
  | none =>
    exfalso
    simp [llama3ResolveModel, safeParseJSON, h, resolverFallback, jsFieldOpt,
      lookupField] at hname

lemma searchEnrichStep_trace (env : Env) (rnVal canonical : Json) (key : String)
    (ev : List Event) :
    (searchEnrichStep env rnVal canonical key ev).2 = ev ++ [Event.enrichCall key] ∨
    ∃ rows, (searchEnrichStep env rnVal canonical key ev).2
        = ev ++ [Event.enrichCall key] ++ [Event.upsertCall rows] := by
  unfold searchEnrichStep
  rcases henrich : env.enrich with msg | content
  · simp
  · rcases content with _ | c0
    · simp
    · by_cases h : jsTrimStr c0 = ""
      · simp [h]
      · rcases hj : jsonParse (jsTrimStr c0) with _ | parsed
        · simp [h, hj]
        · by_cases hn : isNullJson parsed = true
          · simp [h, hj, hn]
          · by_cases hz : (legalRowsSimple parsed key env.now).length = 0
            · simp [h, hj, hn, hz]
            · rcases hu : env.upsert with _ | t | m
              · right
                exact ⟨legalRowsSimple parsed key env.now, by simp [h, hj, hn, hz, hu]⟩
              · right
                exact ⟨legalRowsSimple parsed key env.now, by simp [h, hj, hn, hz, hu]⟩
              · right
                exact ⟨legalRowsSimple parsed key env.now, by simp [h, hj, hn, hz, hu]⟩

/-- Environment of the C4 counterexample: the resolver answers
`resolved_name = "LSD"`, `canonical_name = "Lysergide"`, and the cache
holds a row under the mixed-case key. -/
def c4row : Row :=
  { substance := "Lysergide", country_code := "US", access_status := Json.str "Banned",
    reference_link := none, updated_at := "t0" }

def c4env : Env :=
  { resolverRaw := some "\x7b\"resolved_name\":\"LSD\",\"canonical_name\":\"Lysergide\"\x7d",
    cacheRead := FetchOutcome.ok [c4row], enrich := EnrichOutcome.reply none,
    upsert := FetchOutcome.ok (), now := "t" }

def c4env2 : Env :=
  { c4env with
    resolverRaw := some "\x7b\"resolved_name\":\"LSD\",\"canonical_name\":\"LYSERGIDE\"\x7d" }

/-- C4 (counterexample): in the canonical-identity variant the cache key is
`canonical_name.trim()` with no case folding — canonical name
`"Lysergide"` is looked up under `"Lysergide"`, not its lowercase, and the
case-variant `"LYSERGIDE"` is looked up under a different key. -/
theorem C4_counterexample :
    (searchSubstance c4env "acid").2 = [Event.cacheRead "Lysergide"] ∧
    ("Lysergide" : String) ≠ jsLower "Lysergide" ∧
    (searchSubstance c4env2 "acid").2 = [Event.cacheRead "LYSERGIDE"] ∧
    ("LYSERGIDE" : String) ≠ "Lysergide" := by
  exact ⟨rfl, by decide, rfl, by decide⟩

/-- C4 (amended): the cache key is `toLowerCase(resolvedName)` in the
`src/server.js` and refactored variants — so resubmissions whose resolved
name differs only by ASCII casing reach the same key, though whitespace is
preserved — while the canonical-identity variant uses
`trim(canonicalName)`: whitespace-trimmed but case-preserved, so
case-varied canonical names reach different keys. -/
theorem C4_key_normalization (env : Env) (prompt name : String)
    (hp : prompt ≠ "") (hpt : jsTrimStr prompt ≠ "")
    (hname : jsFieldOpt (llama3ResolveModel env.resolverRaw prompt) "resolved_name"
        = some (Json.str name))
    (hne : name ≠ "") :
    (serverPredict env prompt).2.head? = some (Event.cacheRead (jsLower name)) ∧
    (refactoredPredict env prompt).2.head? = some (Event.cacheRead (jsLower name)) ∧
    (∀ c, jsFieldOpt (llama3ResolveModel env.resolverRaw prompt) "canonical_name"
        = some (Json.str c) →
      (searchSubstance env prompt).2.head? = some (Event.cacheRead (jsTrimStr c))) := by
  have hnn := notNull_of_field _ _ _ hname
  have htr : jsTruthyOpt (jsFieldOpt (llama3ResolveModel env.resolverRaw prompt)
      "resolved_name") = true := by
    rw [hname]; exact jsTruthyOpt_str name hne
  have hlow : jsToLower (jsFieldOpt (llama3ResolveModel env.resolverRaw prompt)
      "resolved_name") = Except.ok (jsLower name) := by
    rw [hname]; rfl
  refine ⟨?_, ?_, ?_⟩
  · rcases hcr : env.cacheRead with results | t | m
    · by_cases hlen : 0 < results.length
      · simp [serverPredict, hp, hnn, htr, hlow, hcr, hlen]
      · simp [serverPredict, serverEnrichStep_trace, hp, hnn, htr, hlow, hcr, hlen]
    · simp [serverPredict, serverEnrichStep_trace, hp, hnn, htr, hlow, hcr]
    · simp [serverPredict, serverEnrichStep_trace, hp, hnn, htr, hlow, hcr]
  · rcases hcr : env.cacheRead with results | t | m
    · by_cases hlen : 0 < results.length
      · simp [refactoredPredict, hp, hnn, htr, hlow, hcr, hlen]
      · simp only [refactoredPredict, if_neg hp]
        simp [hnn, htr, hlow, hcr, hlen]
        rcases refactoredEnrichStep_trace env
            (jsOr (jsFieldOpt (llama3ResolveModel env.resolverRaw prompt) "resolved_name")
              Json.null) (jsLower name) [Event.cacheRead (jsLower name)] with h | ⟨rows, h⟩
        · rw [h]; rfl
        · rw [h]; rfl
    · simp only [refactoredPredict, if_neg hp]
      simp [hnn, htr, hlow, hcr]
      rcases refactoredEnrichStep_trace env
          (jsOr (jsFieldOpt (llama3ResolveModel env.resolverRaw prompt) "resolved_name")
            Json.null) (jsLower name) [Event.cacheRead (jsLower name)] with h | ⟨rows, h⟩
      · rw [h]; rfl
      · rw [h]; rfl
    · simp only [refactoredPredict, if_neg hp]
      simp [hnn, htr, hlow, hcr]
      rcases refactoredEnrichStep_trace env
          (jsOr (jsFieldOpt (llama3ResolveModel env.resolverRaw prompt) "resolved_name")
            Json.null) (jsLower name) [Event.cacheRead (jsLower name)] with h | ⟨rows, h⟩
      · rw [h]; rfl
      · rw [h]; rfl
  · intro c hcanon
    have hq2 := llama3Resolve_query_irrelevant env.resolverRaw prompt (jsTrimStr prompt)
      name hname
    have hcanonP : jsTrim (jsFieldOpt (llama3ResolveModel env.resolverRaw prompt)
        "canonical_name") = Except.ok (jsTrimStr c) := by
      rw [hcanon]; rfl
    rcases hcr : env.cacheRead with results | t | m
    · by_cases hlen : 0 < results.length
      · simp [searchSubstance, hp, hpt, hq2, hnn, htr, hcanonP, hcr, hlen]
      · simp only [searchSubstance, if_neg hp]
        simp [hpt, hq2, hnn, htr, hcanonP, hcr, hlen]
        rcases searchEnrichStep_trace env
            (jsOr (jsFieldOpt (llama3ResolveModel env.resolverRaw prompt)
              "resolved_name") Json.null)
            (jsOr (jsFieldOpt (llama3ResolveModel env.resolverRaw prompt)
              "canonical_name") Json.null)
            (jsTrimStr c) [Event.cacheRead (jsTrimStr c)] with h | ⟨rows, h⟩
        · rw [h]; rfl
        · rw [h]; rfl
    · simp [searchSubstance, hp, hpt, hq2, hnn, htr, hcanonP, hcr]
    · simp [searchSubstance, hp, hpt, hq2, hnn, htr, hcanonP, hcr]

/-- C4 witness: the `src/server.js` variant looks `MDMA` up under the
lower-cased key. -/
theorem C4_witness :
    (serverPredict c2env "molly").2.head? = some (Event.cacheRead "mdma") :=
  (C4_key_normalization c2env "molly" "MDMA" (by decide) (by decide) rfl (by decide)).1

/-- Environment of the C6 counterexample: the cache read comes back
non-2xx, everything else is healthy. -/
def c6env : Env :=
  { resolverRaw := some "\x7b\"resolved_name\":\"MDMA\"\x7d",
    cacheRead := FetchOutcome.httpFail "boom",
    enrich := EnrichOutcome.reply (some "\x7b\"US\":\"Banned\"\x7d"),
    upsert := FetchOutcome.ok (), now := "2024-01-01" }

def c6rowRich : Row :=
  { substance := "mdma", country_code := "US", access_status := Json.str "Unknown",
    reference_link := some Json.null, updated_at := "2024-01-01" }

/-- C6 (counterexample): on a cache-read transport failure `src/server.js`
does not answer a 500 — it proceeds to the enrichment client as if the
cache were merely empty and returns a fresh success; the refactored
variant does the same. -/
theorem C6_counterexample :
    (serverPredict c6env "molly").1
      = PredictResp.ok
          { source := "openai", rows := none, normalizedSubstance := "mdma",
            resolved_name := Json.str "MDMA", canonical_name := Json.null,
            data := [c3row] } ∧
    (serverPredict c6env "molly").2
      = [Event.cacheRead "mdma", Event.enrichCall "mdma"] ∧
    (refactoredPredict c6env "molly").1
      = ProcResp.ok "openai" [c6rowRich] "mdma" (Json.str "MDMA") := by
  exact ⟨rfl, rfl, rfl⟩

/-- C6 (amended): only the search-substance variant surfaces a cache-read
transport failure (non-2xx reply) as a 500 — `"Failed to query Supabase"`
— without calling the enrichment client; the `src/server.js` and
refactored `/api/predict` variants treat any cache-read failure as a miss
and proceed to the enrichment client. -/
theorem C6_cache_read_failure (env : Env) (prompt name c t : String)
    (hp : prompt ≠ "") (hpt : jsTrimStr prompt ≠ "")
    (hname : jsFieldOpt (llama3ResolveModel env.resolverRaw prompt) "resolved_name"
        = some (Json.str name))
    (hne : name ≠ "")
    (hcanon : jsFieldOpt (llama3ResolveModel env.resolverRaw prompt) "canonical_name"
        = some (Json.str c))
    (hcache : env.cacheRead = FetchOutcome.httpFail t) :
    (searchSubstance env prompt).1
      = SearchResp.serverError "Failed to query Supabase" none ∧
    (searchSubstance env prompt).2 = [Event.cacheRead (jsTrimStr c)] ∧
    (serverPredict env prompt).2
      = [Event.cacheRead (jsLower name), Event.enrichCall (jsLower name)] ∧
    Event.enrichCall (jsLower name) ∈ (refactoredPredict env prompt).2 := by
  have hnn := notNull_of_field _ _ _ hname
  have htr : jsTruthyOpt (jsFieldOpt (llama3ResolveModel env.resolverRaw prompt)
      "resolved_name") = true := by
    rw [hname]; exact jsTruthyOpt_str name hne
  have hlow : jsToLower (jsFieldOpt (llama3ResolveModel env.resolverRaw prompt)
      "resolved_name") = Except.ok (jsLower name) := by
    rw [hname]; rfl
  have hq2 := llama3Resolve_query_irrelevant env.resolverRaw prompt (jsTrimStr prompt)
    name hname
  have hcanonP : jsTrim (jsFieldOpt (llama3ResolveModel env.resolverRaw prompt)
      "canonical_name") = Except.ok (jsTrimStr c) := by
    rw [hcanon]; rfl
  refine ⟨?_, ?_, ?_, ?_⟩
  · simp [searchSubstance, hp, hpt, hq2, hnn, htr, hcanonP, hcache]
  · simp [searchSubstance, hp, hpt, hq2, hnn, htr, hcanonP, hcache]
  · simp [serverPredict, serverEnrichStep_trace, hp, hnn, htr, hlow, hcache]
  · simp only [refactoredPredict, if_neg hp]
    simp [hnn, htr, hlow, hcache]
    rcases refactoredEnrichStep_trace env
        (jsOr (jsFieldOpt (llama3ResolveModel env.resolverRaw prompt) "resolved_name")
          Json.null) (jsLower name) [Event.cacheRead (jsLower name)] with h | ⟨rows, h⟩
    · rw [h]; simp
    · rw [h]; simp

/-- Environment of the C6 witness: like `c6env` but the resolver also
reports a canonical name, so the search-substance variant can derive its
key. -/
def c6wenv : Env :=
  { c6env with
    resolverRaw :=
      some "\x7b\"resolved_name\":\"MDMA\",\"canonical_name\":\"Midomafetamine\"\x7d" }

/-- C6 witness: a concrete cache-read failure is a 500 in the
search-substance variant. -/
theorem C6_witness :
    (searchSubstance c6wenv "molly").1
      = SearchResp.serverError "Failed to query Supabase" none :=
  (C6_cache_read_failure c6wenv "molly" "MDMA" "Midomafetamine" "boom"
    (by decide) (by decide) rfl (by decide) rfl rfl).1

/-- Environment of the C7 counterexample: the enrichment provider returns
an empty body. -/
def c7env : Env :=
  { resolverRaw := some "\x7b\"resolved_name\":\"MDMA\"\x7d",
    cacheRead := FetchOutcome.ok [],
    enrich := EnrichOutcome.reply (some ""),
    upsert := FetchOutcome.ok (), now := "2024-01-01" }

/-- Like `c7env` but the body is non-empty and undecodable. -/
def c7envB : Env := { c7env with enrich := EnrichOutcome.reply (some "oops not json") }

/-- C7 (counterexample): an empty enrichment body is not recoverable — the
refactored orchestrator throws `"Empty response from OpenAI"` and answers
a 500; and in `src/server.js` even a non-empty undecodable body is a 500,
not an empty record list. -/
theorem C7_counterexample :
    (refactoredPredict c7env "molly").1
      = ProcResp.serverError "Empty response from OpenAI" ∧
    (serverPredict c7envB "molly").1
      = PredictResp.serverError "Failed to parse OpenAI output" := by
  exact ⟨rfl, rfl⟩

/-- C7 (amended): in the refactored variant a non-empty but fully
undecodable enrichment body yields an empty record list and a success
reply — `source = "openai"` with `data = []`, the emptiness visible to the
caller, and no upsert attempted — rather than a 500; an empty or missing
body raises `"Empty response from OpenAI"` in every variant, and a parse
failure in the non-refactored variants is also a 500-class error. -/
theorem C7_unparseable_recoverable (env : Env) (prompt name raw : String)
    (hp : prompt ≠ "")
    (hname : jsFieldOpt (llama3ResolveModel env.resolverRaw prompt) "resolved_name"
        = some (Json.str name))
    (hne : name ≠ "")
    (hcache : env.cacheRead = FetchOutcome.ok [])
    (henrich : env.enrich = EnrichOutcome.reply (some raw))
    (htrim : jsTrimStr raw ≠ "")
    (hbad : jsonParse (jsTrimStr raw) = none) :
    (refactoredPredict env prompt).1
      = ProcResp.ok "openai" [] (jsLower name) (Json.str name) ∧
    (refactoredPredict env prompt).2
      = [Event.cacheRead (jsLower name), Event.enrichCall (jsLower name)] := by
  have hnn := notNull_of_field _ _ _ hname
  have htr : jsTruthyOpt (jsFieldOpt (llama3ResolveModel env.resolverRaw prompt)
      "resolved_name") = true := by
    rw [hname]; exact jsTruthyOpt_str name hne
  have hlow : jsToLower (jsFieldOpt (llama3ResolveModel env.resolverRaw prompt)
      "resolved_name") = Except.ok (jsLower name) := by
    rw [hname]; rfl
  have hOr : jsOr (jsFieldOpt (llama3ResolveModel env.resolverRaw prompt)
      "resolved_name") Json.null = Json.str name := by
    rw [hname]; simp [jsOr, jsTruthy, hne]
  have hparsed : safeParseJSON (some (jsTrimStr raw)) (Json.obj []) = Json.obj [] := by
    simp [safeParseJSON, rawOrUndefined, hbad]
  have hrows0 : legalRowsRich (Json.obj []) (jsLower name) env.now = Except.ok [] := rfl
  constructor <;>
    simp [refactoredPredict, refactoredEnrichStep, hp, hnn, htr, hlow, hOr, hcache,
      henrich, htrim, hparsed, hrows0]

/-- C7 witness: a concrete undecodable body produces the empty-data
success reply. -/
theorem C7_witness :
    (refactoredPredict c7envB "molly").1
      = ProcResp.ok "openai" [] "mdma" (Json.str "MDMA") :=
  (C7_unparseable_recoverable c7envB "molly" "MDMA" "oops not json"
    (by decide) rfl (by decide) rfl rfl (by decide) rfl).1

/-- Environment of the C8 counterexample: a healthy cold request in the
search-substance variant whose cache upsert comes back non-2xx. -/
def c8env : Env :=
  { resolverRaw :=
      some "\x7b\"resolved_name\":\"MDMA\",\"canonical_name\":\"Midomafetamine\"\x7d",
    cacheRead := FetchOutcome.ok [],
    enrich := EnrichOutcome.reply (some "\x7b\"US\":\"Banned\"\x7d"),
    upsert := FetchOutcome.httpFail "duplicate key", now := "2024-01-01" }

/-- Like `c8env` but the upsert succeeds. -/
def c8envOk : Env := { c8env with upsert := FetchOutcome.ok () }

/-- C8 (counterexample): in the search-substance variant the persistence
outcome does change the response — the identical request is a 500
`"Supabase insert failed"` when the upsert reply is non-2xx and the
fresh-data success when it is 2xx. -/
theorem C8_counterexample :
    (searchSubstance c8env "molly").1
      = SearchResp.serverError "Supabase insert failed" none ∧
    (searchSubstance c8envOk "molly").1
      = SearchResp.okFresh 1 "Midomafetamine" (Json.str "MDMA")
          (Json.str "Midomafetamine") := by
  exact ⟨rfl, rfl⟩

/-- C8 (amended): in the `src/server.js` and refactored `/api/predict`
variants the persistence outcome never changes the reply (or even the
trace): `src/server.js` performs no write at all, and the refactored save
result is ignored; the search-substance variant, by contrast, turns an
upsert failure into a 500 (see the counterexample). -/
theorem C8_persistence_independence (env : Env) (prompt : String)
    (u : FetchOutcome Unit) :
    refactoredPredict { env with upsert := u } prompt = refactoredPredict env prompt ∧
    serverPredict { env with upsert := u } prompt = serverPredict env prompt := by
  cases env
  exact ⟨rfl, rfl⟩
